import Mathlib

/-!
Shallow embedding of `host/srpkg.py` (Sunswift DDS package management tool).

Paths are modelled as lists of path components, as produced by `pathlib`.
The mutable world visible to the tool (directories, plain files, and the
`node_registry.json` file) is a `SysState`.  Every operation of the tool is a
pure function from a state to an outcome (`Except Err`) together with the
state it leaves behind; `die(...)`/`sys.exit(1)` paths are structured `Err`
values, and Python exceptions that the script does not catch are
`Err.uncaught`.  Package names are modelled as single literal path components
(every name the tool's validation accepts is slash-free, and `CWD / ""` is
`CWD` itself, handled by `joinUnder`).  Registry documents follow the shape
the tool reads and writes: a JSON object with the single key "nodes".
-/

set_option maxHeartbeats 1000000

namespace Srpkg

/-- A filesystem path: its components, root first. -/
abbrev AbsPath := List String

/-- The ambient globals of srpkg.py: `CWD = Path.cwd()` and `REPO_ROOT`. -/
structure Env where
  cwd : AbsPath
  repoRoot : AbsPath
deriving DecidableEq, Repr

/-- `NODE_REG_PATH = REPO_ROOT / "node_registry.json"`. -/
def NODE_REG_PATH (env : Env) : AbsPath := env.repoRoot ++ ["node_registry.json"]

/-- One record of the "nodes" array of node_registry.json. -/
structure Entry where
  name : String
  type : String
  path : String
  target : String
deriving DecidableEq, Repr

/-- The parsed registry document: a JSON object with the single field "nodes". -/
structure RegistryDoc where
  nodes : List Entry
deriving DecidableEq, Repr

/-- The registry file: missing, present but not valid JSON, or present with
raw content `text` which `json.loads` parses to `doc`. -/
inductive RegFile where
  | absent
  | invalid
  | stored (text : String) (doc : RegistryDoc)
deriving DecidableEq, Repr

/-- The part of the world srpkg.py reads and mutates. -/
structure SysState where
  dirs : List AbsPath
  files : List AbsPath
  reg : RegFile
deriving DecidableEq, Repr

/-- Python exceptions the script can let escape (it catches only `IOError`
around the registry write). -/
inductive PyExc where
  | fileNotFound
  | fileExists
  | notADirectory
  | isADirectory
  | valueError
  | jsonError
deriving DecidableEq, Repr

/-- Terminal outcomes of an invocation that is not a success:
structured forms of the `die(...)` messages, plus uncaught exceptions. -/
inductive Err where
  | invalidName
  | alreadyExists (pkgName location : String)
  | notFound (pkgName : String)
  | registryEntryError (creating : Bool)
  | uncaught (e : PyExc)
deriving DecidableEq, Repr

deriving instance DecidableEq for Except

/-- Result of `pkg_delete`: the package was deleted, or the user declined the
confirmation prompt and the script did `sys.exit(0)`. -/
inductive DeleteOutcome where
  | deleted
  | declined
deriving DecidableEq, Repr

/-- `CWD / pkg_name` for a single-component name (`Path / "" = Path`). -/
def joinUnder (p : AbsPath) (n : String) : AbsPath :=
  if n = "" then p else p ++ [n]

/-- `Path.relative_to`: drop the root if it is a prefix, else `ValueError`. -/
def relativeTo (root p : AbsPath) : Except Err AbsPath :=
  if root.isPrefixOf p then .ok (p.drop root.length) else .error (.uncaught .valueError)

/-- `str()` of a relative `Path` (an empty relative path prints as "."). -/
def joinPath (p : AbsPath) : String :=
  if p = [] then "." else String.intercalate "/" p

/-- All nonempty prefixes of a path, shortest first (the path itself last). -/
def pathPrefixes (p : AbsPath) : List AbsPath :=
  (List.range p.length).map (fun i => p.take (i + 1))

/-! ### Name validation (main, lines 209-211) -/

/-- One character of the class `[a-z0-9_]`. -/
def snakeChar (c : Char) : Bool :=
  (decide (Char.ofNat 97 ≤ c) && decide (c ≤ Char.ofNat 122)) ||
    (decide (Char.ofNat 48 ≤ c) && decide (c ≤ Char.ofNat 57)) ||
    c == Char.ofNat 95

/-- Truth value of `re.match(r"^[a-z0-9_]*$", s)`: in Python, `$` matches at
the end of the string or just before a newline that ends the string. -/
def reMatchSnake (s : String) : Bool :=
  s.data.all snakeChar ||
    (match s.data.getLast? with
     | some c => c == Char.ofNat 10 && s.data.dropLast.all snakeChar
     | none => false)

/-! ### Registry serialization
`json.dumps(data, indent=2, sort_keys=True) + "\n"`, specialized to the
document shape the tool reads and writes. -/

/-- Lower-case hex digit. -/
def hexDigit (n : Nat) : Char :=
  if n < 10 then Char.ofNat (48 + n) else Char.ofNat (87 + n)

/-- `\uXXXX` escape for a 16-bit value. -/
def uEscape (n : Nat) : List Char :=
  [Char.ofNat 92, Char.ofNat 117,
   hexDigit (n / 4096 % 16), hexDigit (n / 256 % 16), hexDigit (n / 16 % 16), hexDigit (n % 16)]

/-- JSON string-escape of one character, as Python's default
(`ensure_ascii=True`) encoder produces it. -/
def escapeChar (c : Char) : List Char :=
  if c = Char.ofNat 34 then [Char.ofNat 92, Char.ofNat 34]
  else if c = Char.ofNat 92 then [Char.ofNat 92, Char.ofNat 92]
  else if c = Char.ofNat 10 then [Char.ofNat 92, Char.ofNat 110]
  else if c = Char.ofNat 9 then [Char.ofNat 92, Char.ofNat 116]
  else if c = Char.ofNat 13 then [Char.ofNat 92, Char.ofNat 114]
  else if c = Char.ofNat 8 then [Char.ofNat 92, Char.ofNat 98]
  else if c = Char.ofNat 12 then [Char.ofNat 92, Char.ofNat 102]
  else if c.toNat < 32 || c.toNat > 126 then
    if c.toNat < 65536 then uEscape c.toNat
    else uEscape (55296 + (c.toNat - 65536) / 1024) ++ uEscape (56320 + (c.toNat - 65536) % 1024)
  else [c]

/-- JSON string-escape of a whole string. -/
def pyJsonEscape (s : String) : String :=
  String.mk (s.data.map escapeChar).flatten

/-- A JSON string literal: quotes around the escaped content. -/
def dumpStr (s : String) : String :=
  "\"" ++ pyJsonEscape s ++ "\""

/-- Lexicographic code-point comparison of character lists: Python's string
ordering, which `sorted` uses on the keys. -/
def charListLe : List Char → List Char → Bool
  | [], _ => true
  | _ :: _, [] => false
  | a :: as, b :: bs =>
    if a.toNat < b.toNat then true
    else if b.toNat < a.toNat then false
    else charListLe as bs

/-- Python's `<=` on strings. -/
def strLe (a b : String) : Bool := charListLe a.data b.data

/-- Insert a key-value pair into a key-sorted list of pairs. -/
def insertByKey (a : String × String) : List (String × String) → List (String × String)
  | [] => [a]
  | b :: bs => if strLe a.1 b.1 then a :: b :: bs else b :: insertByKey a bs

/-- Sort key-value pairs by key.  The keys of one JSON object are pairwise
distinct, so this produces the same list as Python's `sorted`, which is what
`sort_keys=True` applies to each object's items. -/
def sortByKey : List (String × String) → List (String × String)
  | [] => []
  | a :: as => insertByKey a (sortByKey as)

/-- The key-value pairs of one registry entry, in the insertion order of the
dict literal built by `create_or_delete_entry`. -/
def entryPairs (e : Entry) : List (String × String) :=
  [("name", e.name), ("type", e.type), ("path", e.path), ("target", e.target)]

/-- One entry object as `json.dumps(..., indent=2, sort_keys=True)` renders it
inside the "nodes" array (object braces at indent 4, keys at indent 6). -/
def dumpEntry (e : Entry) : String :=
  "    \x7b\n" ++
    String.intercalate ",\n"
      ((sortByKey (entryPairs e)).map
        (fun kv => "      " ++ dumpStr kv.1 ++ ": " ++ dumpStr kv.2)) ++
    "\n    \x7d"

/-- `json.dumps(data, indent=2, sort_keys=True) + "\n"` for the whole
document, exactly as `create_or_delete_entry` writes it. -/
def saveText (doc : RegistryDoc) : String :=
  "\x7b\n  " ++ dumpStr "nodes" ++ ": " ++
    (if doc.nodes.isEmpty then "[]"
     else "[\n" ++ String.intercalate ",\n" (doc.nodes.map dumpEntry) ++ "\n  ]") ++
    "\n\x7d" ++ "\n"

/-! ### Helpers over the state -/

/-- `json.loads(NODE_REG_PATH.read_text())`: fails unless the registry file
exists and parses. -/
def loadNodeReg (st : SysState) : Except Err RegistryDoc :=
  match st.reg with
  | .stored _ doc => .ok doc
  | _ => .error (.uncaught .jsonError)

/-- `NODE_REG_PATH.write_text(json.dumps(data, indent=2, sort_keys=True) + "\n")`. -/
def saveReg (st : SysState) (doc : RegistryDoc) : SysState :=
  { st with reg := .stored (saveText doc) doc }

/-- `Path.mkdir(parents=True)`: raises if the target already exists, or if a
file sits at one of its prefixes; otherwise creates all missing prefixes. -/
def mkdirParents (st : SysState) (p : AbsPath) : Except Err Unit × SysState :=
  if p ∈ st.dirs ∨ p ∈ st.files then (.error (.uncaught .fileExists), st)
  else if (pathPrefixes p).any (fun q => decide (q ∈ st.files)) then
    (.error (.uncaught .notADirectory), st)
  else (.ok (), { st with dirs := (pathPrefixes p).filter (fun q => decide (q ∉ st.dirs)) ++ st.dirs })

/-- `Path.touch()`: succeeds on an existing path (it just updates times);
creates the file when absent, provided its parent directory exists. -/
def touchFile (st : SysState) (p : AbsPath) : Except Err Unit × SysState :=
  if p ∈ st.dirs ∨ p ∈ st.files then (.ok (), st)
  else if p.dropLast ∈ st.dirs then (.ok (), { st with files := p :: st.files })
  else (.error (.uncaught .fileNotFound), st)

/-- `shutil.rmtree`: removes the directory and everything under it. -/
def rmtree (st : SysState) (p : AbsPath) : Except Err Unit × SysState :=
  if p ∈ st.dirs then
    (.ok (), { st with
        dirs := st.dirs.filter (fun q => !(p.isPrefixOf q)),
        files := st.files.filter (fun q => !(p.isPrefixOf q)) })
  else (.error (.uncaught .notADirectory), st)

/-- `Path.stat()` succeeds exactly when something exists at the path. -/
def statOk (st : SysState) (p : AbsPath) : Prop :=
  p ∈ st.dirs ∨ p ∈ st.files

instance (st : SysState) (p : AbsPath) : Decidable (statOk st p) := by
  unfold statOk; infer_instance

/-- `str.lower()` (ASCII case folding suffices for comparison with "y"). -/
def pyLower (s : String) : String :=
  String.mk (s.data.map Char.toLower)

/-! ### srpkg.py, lines 71-82: `pkg_exist` -/

/-- `pkg_exist`: disk check first (returning the path relative to the repo
root), then a lookup by name in the registry file. -/
def pkg_exist (env : Env) (st : SysState) (pkg_name : String) : Except Err (Bool × Option String) :=
  let absPkgPath := joinUnder env.cwd pkg_name
  if absPkgPath ∈ st.dirs then
    match relativeTo env.repoRoot absPkgPath with
    | .error e => .error e
    | .ok rel => .ok (true, some (joinPath rel))
  else
    match loadNodeReg st with
    | .error e => .error e
    | .ok data =>
      match data.nodes.find? (fun node => node.name == pkg_name) with
      | some found => .ok (true, some found.path)
      | none => .ok (false, none)

/-! ### srpkg.py, lines 84-119: `create_or_delete_entry` -/

/-- The entry appended on create. -/
def newEntryFor (env : Env) (pkg_name : String) (absPkgPath : AbsPath) : Entry :=
  { name := pkg_name, type := "rti_dds",
    path := joinPath (absPkgPath.drop env.repoRoot.length), target := "qnx" }

/-- `create_or_delete_entry`: load the registry, append or pop the entry,
serialize back.  Returns the script's boolean together with the state. -/
def create_or_delete_entry (env : Env) (st : SysState) (create : Bool)
    (pkg_name : String) (absPkgPath : AbsPath) : Except Err Bool × SysState :=
  match loadNodeReg st with
  | .error e => (.error e, st)
  | .ok data =>
    if create then
      match relativeTo env.repoRoot absPkgPath with
      | .error e => (.error e, st)
      | .ok _ =>
        (.ok true, saveReg st { nodes := data.nodes ++ [newEntryFor env pkg_name absPkgPath] })
    else
      match data.nodes.findIdx? (fun node => node.name == pkg_name) with
      | none => (.ok false, st)
      | some index => (.ok true, saveReg st { nodes := data.nodes.eraseIdx index })

/-! ### srpkg.py, lines 123-154: `pkg_create` -/

/-- The fixed subdirectories of a package. -/
def nested_dirs : List String := ["build", "src", "include", "config", "launch"]

/-- The placeholder files of a package. -/
def pkgTemplateFiles : List String := ["CMakelists.txt", "README.md"]

/-- The `for dir in nested_dirs: (abs_pkg_path / dir).mkdir(parents=True)` loop. -/
def mkdirAll (st : SysState) : List AbsPath → Except Err Unit × SysState
  | [] => (.ok (), st)
  | p :: rest =>
    match mkdirParents st p with
    | (.error e, st1) => (.error e, st1)
    | (.ok _, st1) => mkdirAll st1 rest

/-- The `for file in files: (abs_pkg_path / file).touch()` loop. -/
def touchAll (st : SysState) : List AbsPath → Except Err Unit × SysState
  | [] => (.ok (), st)
  | p :: rest =>
    match touchFile st p with
    | (.error e, st1) => (.error e, st1)
    | (.ok _, st1) => touchAll st1 rest

/-- `pkg_create`: existence check, directory/file materialization, registry
entry creation. -/
def pkg_create (env : Env) (st : SysState) (pkg_name : String) : Except Err Unit × SysState :=
  let absPkgPath := joinUnder env.cwd pkg_name
  match pkg_exist env st pkg_name with
  | .error e => (.error e, st)
  | .ok (true, location) => (.error (.alreadyExists pkg_name (location.getD "")), st)
  | .ok (false, _) =>
    match mkdirAll st (nested_dirs.map (fun d => absPkgPath ++ [d])) with
    | (.error e, st1) => (.error e, st1)
    | (.ok _, st1) =>
      match touchAll st1 (pkgTemplateFiles.map (fun f => absPkgPath ++ [f])) with
      | (.error e, st2) => (.error e, st2)
      | (.ok _, st2) =>
        match create_or_delete_entry env st2 true pkg_name absPkgPath with
        | (.error e, st3) => (.error e, st3)
        | (.ok true, st3) => (.ok (), st3)
        | (.ok false, st3) => (.error (.registryEntryError true), st3)

/-! ### srpkg.py, lines 157-187: `pkg_delete` -/

/-- `pkg_delete`: existence check, `stat` for the advisory display, prompt
(`answer` models the `input()` line), then `rmtree` and registry removal. -/
def pkg_delete (env : Env) (st : SysState) (pkg_name : String) (answer : String) :
    Except Err DeleteOutcome × SysState :=
  let absPkgPath := joinUnder env.cwd pkg_name
  match pkg_exist env st pkg_name with
  | .error e => (.error e, st)
  | .ok (false, _) => (.error (.notFound pkg_name), st)
  | .ok (true, _) =>
    if statOk st absPkgPath then
      if pyLower answer = "y" then
        match rmtree st absPkgPath with
        | (.error e, st1) => (.error e, st1)
        | (.ok _, st1) =>
          match create_or_delete_entry env st1 false pkg_name absPkgPath with
          | (.error e, st2) => (.error e, st2)
          | (.ok true, st2) => (.ok .deleted, st2)
          | (.ok false, st2) => (.error (.registryEntryError false), st2)
      else (.ok .declined, st)
    else (.error (.uncaught .fileNotFound), st)

/-! ### srpkg.py, lines 192-222: `main` (validation and dispatch) -/

/-- Which mutually exclusive flag was given. -/
inductive Action where
  | create
  | delete
deriving DecidableEq, Repr

/-- Overall outcome of a successful invocation. -/
inductive RunOutcome where
  | created
  | deleted
  | declined
deriving DecidableEq, Repr

/-- `main` after argument parsing: validate the name, then dispatch. -/
def main_run (env : Env) (st : SysState) (act : Action) (pkg_name answer : String) :
    Except Err RunOutcome × SysState :=
  if reMatchSnake pkg_name then
    match act with
    | .create =>
      match pkg_create env st pkg_name with
      | (.ok _, st1) => (.ok .created, st1)
      | (.error e, st1) => (.error e, st1)
    | .delete =>
      match pkg_delete env st pkg_name answer with
      | (.ok .deleted, st1) => (.ok .deleted, st1)
      | (.ok .declined, st1) => (.ok .declined, st1)
      | (.error e, st1) => (.error e, st1)
  else (.error .invalidName, st)

/-! ### The serialization format as the spec states it
`specEntryText`/`specSaveText` write the registry file directly in the format
the spec describes: each object's keys in sorted order ("name" < "path" <
"target" < "type", and the single top-level key "nodes"), two spaces of
indentation per nesting level, and a final trailing newline.  They are the
spec-side half of the refinement proved for the serializer. -/

/-- One registry entry in the spec's stated format: keys listed explicitly in
sorted order at the third nesting level. -/
def specEntryText (e : Entry) : String :=
  "    \x7b\n" ++
    String.intercalate ",\n"
      ["      " ++ dumpStr "name" ++ ": " ++ dumpStr e.name,
       "      " ++ dumpStr "path" ++ ": " ++ dumpStr e.path,
       "      " ++ dumpStr "target" ++ ": " ++ dumpStr e.target,
       "      " ++ dumpStr "type" ++ ": " ++ dumpStr e.type] ++
    "\n    \x7d"

/-- The whole registry file in the spec's stated format. -/
def specSaveText (doc : RegistryDoc) : String :=
  "\x7b\n  " ++ dumpStr "nodes" ++ ": " ++
    (if doc.nodes.isEmpty then "[]"
     else "[\n" ++ String.intercalate ",\n" (doc.nodes.map specEntryText) ++ "\n  ]") ++
    "\n\x7d" ++ "\n"

/-! ### Path lemmas -/

theorem pathPrefixes_concat (p : AbsPath) (x : String) :
    pathPrefixes (p ++ [x]) = pathPrefixes p ++ [p ++ [x]] := by
  unfold pathPrefixes
  rw [List.length_append, List.length_cons, List.length_nil, List.range_succ, List.map_append]
  congr 1
  · apply List.map_congr_left
    intro i hi
    exact List.take_append_of_le_length (List.mem_range.mp hi)
  · simp [List.take_of_length_le]

theorem self_mem_pathPrefixes {p : AbsPath} (h : p ≠ []) : p ∈ pathPrefixes p := by
  unfold pathPrefixes
  have hpos : 0 < p.length := List.length_pos.mpr h
  refine List.mem_map.mpr ⟨p.length - 1, List.mem_range.mpr (by omega), ?_⟩
  rw [Nat.sub_add_cancel hpos, List.take_length]

theorem length_le_of_mem_pathPrefixes {q p : AbsPath} (h : q ∈ pathPrefixes p) :
    q.length ≤ p.length := by
  unfold pathPrefixes at h
  obtain ⟨i, _, rfl⟩ := List.mem_map.mp h
  rw [List.length_take]
  exact Nat.min_le_right _ _

theorem prefix_of_mem_pathPrefixes {q p : AbsPath} (h : q ∈ pathPrefixes p) : q <+: p := by
  unfold pathPrefixes at h
  obtain ⟨i, _, rfl⟩ := List.mem_map.mp h
  exact List.take_prefix _ _

theorem cwd_prefix_joinUnder (cwd : AbsPath) (n : String) : cwd <+: joinUnder cwd n := by
  unfold joinUnder
  split
  · exact List.prefix_refl _
  · exact List.prefix_append _ _

/-! ### `pkg_exist` characterizations -/

theorem pkg_exist_disk {env : Env} {st : SysState} {name : String}
    (hdir : joinUnder env.cwd name ∈ st.dirs)
    (hpre : env.repoRoot.isPrefixOf (joinUnder env.cwd name) = true) :
    pkg_exist env st name =
      .ok (true, some (joinPath ((joinUnder env.cwd name).drop env.repoRoot.length))) := by
  unfold pkg_exist relativeTo
  rw [if_pos hdir, if_pos hpre]

theorem pkg_exist_reg {env : Env} {st : SysState} {name t : String} {doc : RegistryDoc}
    {e : Entry}
    (hdir : joinUnder env.cwd name ∉ st.dirs)
    (hreg : st.reg = .stored t doc)
    (hfind : doc.nodes.find? (fun n => n.name == name) = some e) :
    pkg_exist env st name = .ok (true, some e.path) := by
  unfold pkg_exist loadNodeReg
  rw [if_neg hdir, hreg]
  simp only [hfind]

theorem pkg_exist_none {env : Env} {st : SysState} {name t : String} {doc : RegistryDoc}
    (hdir : joinUnder env.cwd name ∉ st.dirs)
    (hreg : st.reg = .stored t doc)
    (hfind : doc.nodes.find? (fun n => n.name == name) = none) :
    pkg_exist env st name = .ok (false, none) := by
  unfold pkg_exist loadNodeReg
  rw [if_neg hdir, hreg]
  simp only [hfind]

theorem pkg_create_of_exist {env : Env} {st : SysState} {name loc : String}
    (h : pkg_exist env st name = .ok (true, some loc)) :
    pkg_create env st name = (.error (.alreadyExists name loc), st) := by
  unfold pkg_create
  rw [h]
  rfl

/-! ### C10 -/

/-- C10: when a directory already exists at `currentDirectory/name`, the
existence check answers from the disk alone, without reading the registry
file: for every registry-file condition (including missing or unparsable),
`pkg_exist` reports the conflict at the repository-relative disk path, and
`pkg_create` dies with `AlreadyExists` at that path without any mutation. -/
theorem disk_check_short_circuits_registry (env : Env) (st : SysState) (name : String)
    (hpre : env.repoRoot.isPrefixOf (joinUnder env.cwd name) = true)
    (hdir : joinUnder env.cwd name ∈ st.dirs) :
    (∀ rf : RegFile, pkg_exist env { st with reg := rf } name =
        .ok (true, some (joinPath ((joinUnder env.cwd name).drop env.repoRoot.length)))) ∧
      pkg_create env st name =
        (.error (.alreadyExists name
          (joinPath ((joinUnder env.cwd name).drop env.repoRoot.length))), st) := by
  have hex : ∀ rf : RegFile, pkg_exist env { st with reg := rf } name =
      .ok (true, some (joinPath ((joinUnder env.cwd name).drop env.repoRoot.length))) :=
    fun _ => pkg_exist_disk hdir hpre
  exact ⟨hex, pkg_create_of_exist (hex st.reg)⟩

/-- Witness for C10: a concrete state whose registry file is absent. -/
theorem disk_check_short_circuits_registry_witness :
    (Env.repoRoot ⟨["repo", "src"], ["repo"]⟩).isPrefixOf
        (joinUnder (Env.cwd ⟨["repo", "src"], ["repo"]⟩) "pkg") = true ∧
      joinUnder ["repo", "src"] "pkg" ∈
        (SysState.mk [["repo", "src", "pkg"], ["repo", "src"]] [] .absent).dirs ∧
      pkg_create ⟨["repo", "src"], ["repo"]⟩
          ⟨[["repo", "src", "pkg"], ["repo", "src"]], [], .absent⟩ "pkg" =
        (.error (.alreadyExists "pkg" "src/pkg"),
          ⟨[["repo", "src", "pkg"], ["repo", "src"]], [], .absent⟩) := by
  refine ⟨by decide, by decide, ?_⟩
  have h := (disk_check_short_circuits_registry ⟨["repo", "src"], ["repo"]⟩
    ⟨[["repo", "src", "pkg"], ["repo", "src"]], [], .absent⟩ "pkg" (by decide) (by decide)).2
  simpa using h

/-! ### C8 -/

/-- C8: when the registry has an entry for the name but no directory (and no
file) exists at `currentDirectory/name`, `pkg_delete` passes its existence
check through the registry and then crashes with an uncaught
`FileNotFoundError` from `Path.stat`, instead of reporting `NotFound` or any
structured error. -/
theorem delete_registry_only_stat_crash (env : Env) (st : SysState)
    (name ans t : String) (doc : RegistryDoc) (e : Entry)
    (hnd : joinUnder env.cwd name ∉ st.dirs)
    (hnf : joinUnder env.cwd name ∉ st.files)
    (hreg : st.reg = .stored t doc)
    (hfind : doc.nodes.find? (fun n => n.name == name) = some e) :
    pkg_delete env st name ans = (.error (.uncaught .fileNotFound), st) := by
  have hstat : ¬ statOk st (joinUnder env.cwd name) := fun h => h.elim hnd hnf
  unfold pkg_delete
  rw [pkg_exist_reg hnd hreg hfind]
  simp only []
  rw [if_neg hstat]

/-- Witness for C8. -/
theorem delete_registry_only_stat_crash_witness :
    (joinUnder ["repo", "src"] "ghost" ∉
        (SysState.mk [["repo", "src"]] [] (.stored "x" ⟨[⟨"ghost", "rti_dds", "src/ghost", "qnx"⟩]⟩)).dirs) ∧
      pkg_delete ⟨["repo", "src"], ["repo"]⟩
          ⟨[["repo", "src"]], [], .stored "x" ⟨[⟨"ghost", "rti_dds", "src/ghost", "qnx"⟩]⟩⟩
          "ghost" "y" =
        (.error (.uncaught .fileNotFound),
          ⟨[["repo", "src"]], [], .stored "x" ⟨[⟨"ghost", "rti_dds", "src/ghost", "qnx"⟩]⟩⟩) :=
  ⟨by decide,
    delete_registry_only_stat_crash ⟨["repo", "src"], ["repo"]⟩
      ⟨[["repo", "src"]], [], .stored "x" ⟨[⟨"ghost", "rti_dds", "src/ghost", "qnx"⟩]⟩⟩
      "ghost" "y" "x" ⟨[⟨"ghost", "rti_dds", "src/ghost", "qnx"⟩]⟩
      ⟨"ghost", "rti_dds", "src/ghost", "qnx"⟩
      (by decide) (by decide) (by decide) (by decide)⟩

/-! ### C6 -/

/-- C6: any answer whose lower-casing is not the affirmative token "y"
aborts the delete after the prompt with no filesystem or registry mutation,
and `main` finishes with the clean `sys.exit(0)` path (`.ok .declined`). -/
theorem delete_declined_no_mutation (env : Env) (st : SysState) (name answer : String)
    (hans : pyLower answer ≠ "y")
    (hdir : joinUnder env.cwd name ∈ st.dirs)
    (hpre : env.repoRoot.isPrefixOf (joinUnder env.cwd name) = true)
    (hvalid : reMatchSnake name = true) :
    pkg_delete env st name answer = (.ok .declined, st) ∧
      main_run env st .delete name answer = (.ok .declined, st) := by
  have hstat : statOk st (joinUnder env.cwd name) := Or.inl hdir
  have h1 : pkg_delete env st name answer = (.ok .declined, st) := by
    unfold pkg_delete
    rw [pkg_exist_disk hdir hpre]
    simp only []
    rw [if_pos hstat, if_neg hans]
  refine ⟨h1, ?_⟩
  unfold main_run
  rw [if_pos hvalid, h1]

/-- Witness for C6: answering "n" leaves everything intact. -/
theorem delete_declined_no_mutation_witness :
    pyLower "n" ≠ "y" ∧
      pkg_delete ⟨["repo", "src"], ["repo"]⟩
          ⟨[["repo", "src", "pkg"], ["repo", "src"]], [], .absent⟩ "pkg" "n" =
        (.ok .declined, ⟨[["repo", "src", "pkg"], ["repo", "src"]], [], .absent⟩) :=
  ⟨by decide,
    (delete_declined_no_mutation ⟨["repo", "src"], ["repo"]⟩
      ⟨[["repo", "src", "pkg"], ["repo", "src"]], [], .absent⟩ "pkg" "n"
      (by decide) (by decide) (by decide) (by decide)).1⟩

/-! ### C5 -/

/-- The validation predicate, characterized: Python's `$` also matches just
before one trailing newline, so `re.match(r"^[a-z0-9_]*$", s)` is truthy iff
every character of `s` is in the class, or `s` is such a string followed by
one final newline. -/
theorem reMatchSnake_iff (s : String) :
    reMatchSnake s = true ↔
      (s.data.all snakeChar = true ∨
        ∃ w : List Char, s.data = w ++ [Char.ofNat 10] ∧ w.all snakeChar = true) := by
  unfold reMatchSnake
  generalize s.data = l
  induction l using List.reverseRecOn with
  | nil => simp
  | append_singleton l c _ =>
    rw [List.getLast?_concat]
    simp only [List.dropLast_concat, Bool.or_eq_true, Bool.and_eq_true, beq_iff_eq]
    constructor
    · rintro (h | ⟨rfl, h⟩)
      · exact Or.inl h
      · exact Or.inr ⟨l, rfl, h⟩
    · rintro (h | ⟨w, heq, hw⟩)
      · exact Or.inl h
      · obtain ⟨rfl, hc⟩ := List.append_inj' heq rfl
        simp only [List.cons.injEq] at hc
        exact Or.inr ⟨hc.1, hw⟩

/-- Counterexample for C5 as stated: the string "abc\n" is accepted by the
validation although it does not consist solely of `[a-z0-9_]` characters. -/
theorem name_validation_counterexample :
    reMatchSnake "abc\n" = true ∧ ("abc\n".data.all snakeChar) = false := by
  decide

/-- C5 (amended): validation accepts exactly the strings of `[a-z0-9_]`
characters optionally followed by one trailing newline (Python `$`
semantics); "BadName" and "bad-name" are rejected; and on any rejected name
`main` reports `InvalidName` with the state untouched (no filesystem or
registry access happens). -/
theorem name_validation_amended :
    (∀ s : String, reMatchSnake s = true ↔
        (s.data.all snakeChar = true ∨
          ∃ w : List Char, s.data = w ++ [Char.ofNat 10] ∧ w.all snakeChar = true)) ∧
      reMatchSnake "BadName" = false ∧ reMatchSnake "bad-name" = false ∧
      reMatchSnake "" = true ∧
      (∀ (env : Env) (st : SysState) (act : Action) (n a : String),
        reMatchSnake n = false → main_run env st act n a = (.error .invalidName, st)) := by
  refine ⟨reMatchSnake_iff, by decide, by decide, by decide, ?_⟩
  intro env st act n a hn
  unfold main_run
  rw [hn]
  simp only [Bool.false_eq_true, if_false]

/-- Witness for C5's amended theorem. -/
theorem name_validation_amended_witness :
    reMatchSnake "BadName" = false ∧
      main_run ⟨["repo"], ["repo"]⟩ ⟨[["repo"]], [], .absent⟩ .create "BadName" "" =
        (.error .invalidName, ⟨[["repo"]], [], .absent⟩) :=
  ⟨by decide,
    name_validation_amended.2.2.2.2 ⟨["repo"], ["repo"]⟩ ⟨[["repo"]], [], .absent⟩
      .create "BadName" "" (by decide)⟩

/-! ### C7 -/

theorem sortByKey_entryPairs (e : Entry) :
    sortByKey (entryPairs e) =
      [("name", e.name), ("path", e.path), ("target", e.target), ("type", e.type)] := by
  have h1 : strLe "path" "target" = true := by decide
  have h2 : strLe "type" "path" = false := by decide
  have h3 : strLe "type" "target" = false := by decide
  have h4 : strLe "name" "path" = true := by decide
  simp [sortByKey, insertByKey, entryPairs, h1, h2, h3, h4]

theorem dumpEntry_eq_spec (e : Entry) : dumpEntry e = specEntryText e := by
  unfold dumpEntry specEntryText
  rw [sortByKey_entryPairs]
  rfl

/-- C7: the registry write is deterministic and in the spec's stated format:
for every document the text written equals the explicit sorted-keys,
2-space-indented rendering; the keys of every entry object appear in sorted
order; the text ends with a trailing newline; `save` replaces exactly the
registry-file slot of the state with that serialization; and the registry
file lives at the fixed location `REPO_ROOT / "node_registry.json"`. -/
theorem save_serialization_spec :
    (∀ doc : RegistryDoc, saveText doc = specSaveText doc) ∧
      (∀ e : Entry,
        (sortByKey (entryPairs e)).map Prod.fst = ["name", "path", "target", "type"]) ∧
      (∀ doc : RegistryDoc, ∃ t : String, saveText doc = t ++ "\n") ∧
      (∀ (st : SysState) (doc : RegistryDoc),
        (saveReg st doc).reg = .stored (saveText doc) doc ∧
          (saveReg st doc).dirs = st.dirs ∧ (saveReg st doc).files = st.files) ∧
      (∀ env : Env, NODE_REG_PATH env = env.repoRoot ++ ["node_registry.json"]) := by
  refine ⟨?_, fun e => by rw [sortByKey_entryPairs]; rfl, fun doc => ⟨_, rfl⟩,
    fun st doc => ⟨rfl, rfl, rfl⟩, fun env => rfl⟩
  intro doc
  unfold saveText specSaveText
  rw [List.map_congr_left (fun e _ => dumpEntry_eq_spec e)]

/-! ### Inversion and computation lemmas for the registry operations -/

theorem loadNodeReg_ok {st : SysState} {doc : RegistryDoc}
    (h : loadNodeReg st = .ok doc) : ∃ t, st.reg = .stored t doc := by
  unfold loadNodeReg at h
  cases hreg : st.reg with
  | absent => rw [hreg] at h; simp at h
  | invalid => rw [hreg] at h; simp at h
  | stored t d =>
    rw [hreg] at h
    simp only [Except.ok.injEq] at h
    exact ⟨t, by rw [h]⟩

theorem relativeTo_ok_inv {root p rel : AbsPath}
    (h : relativeTo root p = .ok rel) :
    root.isPrefixOf p = true ∧ rel = p.drop root.length := by
  unfold relativeTo at h
  split at h
  · rename_i hc
    injection h with h1
    exact ⟨hc, h1.symm⟩
  · simp at h

theorem cde_create_run {env : Env} {st : SysState} {name t : String}
    {absP : AbsPath} {doc : RegistryDoc}
    (hreg : st.reg = .stored t doc)
    (hpre : env.repoRoot.isPrefixOf absP = true) :
    create_or_delete_entry env st true name absP =
      (.ok true, saveReg st ⟨doc.nodes ++ [newEntryFor env name absP]⟩) := by
  unfold create_or_delete_entry loadNodeReg relativeTo
  rw [hreg]
  simp [hpre]

theorem cde_create_valueError {env : Env} {st : SysState} {name t : String}
    {absP : AbsPath} {doc : RegistryDoc}
    (hreg : st.reg = .stored t doc)
    (hpre : env.repoRoot.isPrefixOf absP = false) :
    create_or_delete_entry env st true name absP = (.error (.uncaught .valueError), st) := by
  unfold create_or_delete_entry loadNodeReg relativeTo
  rw [hreg]
  simp [hpre]

theorem cde_delete_run {env : Env} {st : SysState} {name t : String}
    {absP : AbsPath} {doc : RegistryDoc} {i : Nat}
    (hreg : st.reg = .stored t doc)
    (hidx : doc.nodes.findIdx? (fun n => n.name == name) = some i) :
    create_or_delete_entry env st false name absP =
      (.ok true, saveReg st ⟨doc.nodes.eraseIdx i⟩) := by
  unfold create_or_delete_entry loadNodeReg
  rw [hreg]
  simp [hidx]

theorem cde_create_ok {env : Env} {st : SysState} {name : String} {absP : AbsPath}
    {b : Bool} {st' : SysState}
    (h : create_or_delete_entry env st true name absP = (.ok b, st')) :
    b = true ∧ env.repoRoot.isPrefixOf absP = true ∧
      ∃ t doc, st.reg = .stored t doc ∧
        st' = saveReg st ⟨doc.nodes ++ [newEntryFor env name absP]⟩ := by
  unfold create_or_delete_entry at h
  split at h
  · simp at h
  · rename_i data heq
    rw [if_pos rfl] at h
    split at h
    · simp at h
    · rename_i rel hrel
      injection h with h1 h2
      injection h1 with h1
      obtain ⟨t, hreg⟩ := loadNodeReg_ok heq
      exact ⟨h1.symm, (relativeTo_ok_inv hrel).1, t, data, hreg, h2.symm⟩

theorem cde_delete_ok {env : Env} {st : SysState} {name : String} {absP : AbsPath}
    {b : Bool} {st' : SysState}
    (h : create_or_delete_entry env st false name absP = (.ok b, st')) :
    (b = false ∧ st' = st) ∨
      (b = true ∧ ∃ t doc i, st.reg = .stored t doc ∧
        doc.nodes.findIdx? (fun n => n.name == name) = some i ∧
        st' = saveReg st ⟨doc.nodes.eraseIdx i⟩) := by
  unfold create_or_delete_entry at h
  split at h
  · simp at h
  · rename_i data heq
    rw [if_neg (by simp)] at h
    split at h
    · injection h with h1 h2
      injection h1 with h1
      exact Or.inl ⟨h1.symm, h2.symm⟩
    · rename_i i hidx
      injection h with h1 h2
      injection h1 with h1
      obtain ⟨t, hreg⟩ := loadNodeReg_ok heq
      exact Or.inr ⟨h1.symm, t, data, i, hreg, hidx, h2.symm⟩

/-! ### Inversion lemmas for the filesystem loops -/

theorem mkdirParents_frame {st : SysState} {p : AbsPath} {r : Except Err Unit}
    {st' : SysState} (h : mkdirParents st p = (r, st')) :
    st'.files = st.files ∧ st'.reg = st.reg ∧
      ∃ L, (∀ q ∈ L, q ∈ pathPrefixes p) ∧ st'.dirs = L ++ st.dirs := by
  unfold mkdirParents at h
  split at h
  · injection h with h1 h2
    subst h2
    exact ⟨rfl, rfl, [], by simp, rfl⟩
  · split at h
    · injection h with h1 h2
      subst h2
      exact ⟨rfl, rfl, [], by simp, rfl⟩
    · injection h with h1 h2
      subst h2
      refine ⟨rfl, rfl, _, ?_, rfl⟩
      intro q hq
      exact (List.mem_filter.mp hq).1

theorem mkdirParents_ok_mem {st : SysState} {p : AbsPath} {u : Unit} {st' : SysState}
    (h : mkdirParents st p = (.ok u, st')) :
    (∀ q ∈ pathPrefixes p, q ∈ st'.dirs) ∧ (∀ q ∈ st.dirs, q ∈ st'.dirs) := by
  unfold mkdirParents at h
  split at h
  · simp at h
  · split at h
    · simp at h
    · injection h with h1 h2
      subst h2
      constructor
      · intro q hq
        simp only [List.mem_append, List.mem_filter]
        by_cases hmem : q ∈ st.dirs
        · exact Or.inr hmem
        · exact Or.inl ⟨hq, decide_eq_true hmem⟩
      · intro q hq
        exact List.mem_append.mpr (Or.inr hq)

theorem mkdirAll_frame : ∀ (ps : List AbsPath) (st : SysState) (r : Except Err Unit)
    (st' : SysState), mkdirAll st ps = (r, st') →
    st'.files = st.files ∧ st'.reg = st.reg ∧ ∃ L, st'.dirs = L ++ st.dirs := by
  intro ps
  induction ps with
  | nil =>
    intro st r st' h
    unfold mkdirAll at h
    injection h with h1 h2
    subst h2
    exact ⟨rfl, rfl, [], rfl⟩
  | cons p rest ih =>
    intro st r st' h
    unfold mkdirAll at h
    split at h
    · rename_i e st1 heq
      injection h with h1 h2
      subst h2
      obtain ⟨hf, hr, L, _, hd⟩ := mkdirParents_frame heq
      exact ⟨hf, hr, L, hd⟩
    · rename_i u st1 heq
      obtain ⟨hf1, hr1, L1, _, hd1⟩ := mkdirParents_frame heq
      obtain ⟨hf2, hr2, L2, hd2⟩ := ih st1 r st' h
      exact ⟨hf2.trans hf1, hr2.trans hr1, L2 ++ L1,
        by rw [hd2, hd1, List.append_assoc]⟩

theorem touchFile_frame {st : SysState} {p : AbsPath} {r : Except Err Unit}
    {st' : SysState} (h : touchFile st p = (r, st')) :
    st'.dirs = st.dirs ∧ st'.reg = st.reg ∧ ∃ F, st'.files = F ++ st.files := by
  unfold touchFile at h
  split at h
  · injection h with h1 h2
    subst h2
    exact ⟨rfl, rfl, [], rfl⟩
  · split at h
    · injection h with h1 h2
      subst h2
      exact ⟨rfl, rfl, [p], rfl⟩
    · injection h with h1 h2
      subst h2
      exact ⟨rfl, rfl, [], rfl⟩

theorem touchAll_frame : ∀ (ps : List AbsPath) (st : SysState) (r : Except Err Unit)
    (st' : SysState), touchAll st ps = (r, st') →
    st'.dirs = st.dirs ∧ st'.reg = st.reg ∧ ∃ F, st'.files = F ++ st.files := by
  intro ps
  induction ps with
  | nil =>
    intro st r st' h
    unfold touchAll at h
    injection h with h1 h2
    subst h2
    exact ⟨rfl, rfl, [], rfl⟩
  | cons p rest ih =>
    intro st r st' h
    unfold touchAll at h
    split at h
    · rename_i e st1 heq
      injection h with h1 h2
      subst h2
      obtain ⟨hd, hr, F, hf⟩ := touchFile_frame heq
      exact ⟨hd, hr, F, hf⟩
    · rename_i u st1 heq
      obtain ⟨hd1, hr1, F1, hf1⟩ := touchFile_frame heq
      obtain ⟨hd2, hr2, F2, hf2⟩ := ih st1 r st' h
      exact ⟨hd2.trans hd1, hr2.trans hr1, F2 ++ F1,
        by rw [hf2, hf1, List.append_assoc]⟩

theorem rmtree_frame {st : SysState} {p : AbsPath} {r : Except Err Unit}
    {st' : SysState} (h : rmtree st p = (r, st')) : st'.reg = st.reg := by
  unfold rmtree at h
  split at h
  · injection h with h1 h2; subst h2; rfl
  · injection h with h1 h2; subst h2; rfl

/-! ### Inversions for `pkg_exist`, `pkg_create`, `pkg_delete` -/

theorem pkg_exist_false_inv {env : Env} {st : SysState} {name : String}
    {l : Option String} (h : pkg_exist env st name = .ok (false, l)) :
    joinUnder env.cwd name ∉ st.dirs ∧
      ∃ t doc, st.reg = .stored t doc ∧
        doc.nodes.find? (fun n => n.name == name) = none := by
  unfold pkg_exist at h
  simp only [] at h
  by_cases hdir : joinUnder env.cwd name ∈ st.dirs
  · rw [if_pos hdir] at h
    split at h <;> simp at h
  · rw [if_neg hdir] at h
    split at h
    · simp at h
    · rename_i data heq
      split at h
      · simp at h
      · rename_i hfind
        obtain ⟨t, hreg⟩ := loadNodeReg_ok heq
        exact ⟨hdir, t, data, hreg, hfind⟩

theorem pkg_create_ok_inv {env : Env} {st : SysState} {name : String} {u : Unit}
    {st' : SysState} (h : pkg_create env st name = (.ok u, st')) :
    env.repoRoot.isPrefixOf (joinUnder env.cwd name) = true ∧
      ∃ t doc, st.reg = .stored t doc ∧
        doc.nodes.find? (fun n => n.name == name) = none ∧
        st'.reg = .stored
          (saveText ⟨doc.nodes ++ [newEntryFor env name (joinUnder env.cwd name)]⟩)
          ⟨doc.nodes ++ [newEntryFor env name (joinUnder env.cwd name)]⟩ := by
  unfold pkg_create at h
  simp only [] at h
  split at h
  · simp at h
  · simp at h
  · rename_i l hex
    obtain ⟨hdir, t, doc, hreg, hfind⟩ := pkg_exist_false_inv hex
    split at h
    · simp at h
    · rename_i u1 st1 hmk
      split at h
      · simp at h
      · rename_i u2 st2 htc
        split at h
        · simp at h
        · rename_i st3 hcde
          injection h with h1 h2
          subst h2
          obtain ⟨_, hpre, t2, doc2, hreg2, hst3⟩ := cde_create_ok hcde
          obtain ⟨_, hr1, _⟩ := mkdirAll_frame _ _ _ _ hmk
          obtain ⟨_, hr2, _⟩ := touchAll_frame _ _ _ _ htc
          rw [hr1, hreg] at hr2
          rw [hr2] at hreg2
          injection hreg2 with ht hd
          subst hd
          refine ⟨hpre, t, doc, hreg, hfind, ?_⟩
          rw [hst3]
          rfl
        · simp at h

theorem pkg_delete_ok_inv {env : Env} {st : SysState} {name ans : String}
    {r : DeleteOutcome} {st' : SysState}
    (h : pkg_delete env st name ans = (.ok r, st')) :
    (r = .declined ∧ st' = st) ∨
      (r = .deleted ∧ ∃ t doc i, st.reg = .stored t doc ∧
        doc.nodes.findIdx? (fun n => n.name == name) = some i ∧
        st'.reg = .stored (saveText ⟨doc.nodes.eraseIdx i⟩) ⟨doc.nodes.eraseIdx i⟩) := by
  unfold pkg_delete at h
  simp only [] at h
  split at h
  · simp at h
  · simp at h
  · by_cases hstat : statOk st (joinUnder env.cwd name)
    · rw [if_pos hstat] at h
      by_cases hans : pyLower ans = "y"
      · rw [if_pos hans] at h
        split at h
        · simp at h
        · rename_i u st1 hrm
          split at h
          · simp at h
          · rename_i st2 hcde
            injection h with h1 h2
            subst h2
            injection h1 with h1
            rcases cde_delete_ok hcde with ⟨hb, _⟩ | ⟨_, t, doc, i, hreg1, hidx, hst2⟩
            · cases hb
            · have hr := rmtree_frame hrm
              rw [hr] at hreg1
              refine Or.inr ⟨h1.symm, t, doc, i, hreg1, hidx, ?_⟩
              rw [hst2]
              rfl
          · simp at h
      · rw [if_neg hans] at h
        injection h with h1 h2
        subst h2
        injection h1 with h1
        exact Or.inl ⟨h1.symm, rfl⟩
    · rw [if_neg hstat] at h
      simp at h

/-! ### `find?` over an appended fresh entry -/

theorem find?_append_of_none {α : Type} {p : α → Bool} {l₁ l₂ : List α}
    (h : l₁.find? p = none) : (l₁ ++ l₂).find? p = l₂.find? p := by
  rw [List.find?_append, h, Option.none_or]

/-! ### C1 -/

/-- C1: if the target directory already exists on disk (and the tool runs
inside the repository), or the registry has an entry with the name, `Create`
dies with `AlreadyExists` naming the conflicting location (the disk path
relative to the repository root, respectively the registry-recorded path) and
leaves the state untouched; and after any successful `Create`, an immediate
second `Create` of the same name fails with `AlreadyExists` and zero
mutation. -/
theorem create_alreadyExists_no_mutation (env : Env) (st : SysState) (name : String) :
    (env.repoRoot.isPrefixOf (joinUnder env.cwd name) = true →
      joinUnder env.cwd name ∈ st.dirs →
      pkg_create env st name = (.error (.alreadyExists name
        (joinPath ((joinUnder env.cwd name).drop env.repoRoot.length))), st)) ∧
      (joinUnder env.cwd name ∉ st.dirs →
        ∀ (t : String) (doc : RegistryDoc) (e : Entry), st.reg = .stored t doc →
          doc.nodes.find? (fun n => n.name == name) = some e →
          pkg_create env st name = (.error (.alreadyExists name e.path), st)) ∧
      (∀ st', pkg_create env st name = (.ok (), st') →
        ∃ loc, pkg_create env st' name = (.error (.alreadyExists name loc), st')) := by
  refine ⟨fun hpre hdir => pkg_create_of_exist (pkg_exist_disk hdir hpre),
    fun hdir t doc e hreg hfind => pkg_create_of_exist (pkg_exist_reg hdir hreg hfind), ?_⟩
  intro st' h
  obtain ⟨hpre, t, doc, hreg, hfind, hreg'⟩ := pkg_create_ok_inv h
  by_cases hdir : joinUnder env.cwd name ∈ st'.dirs
  · exact ⟨_, pkg_create_of_exist (pkg_exist_disk hdir hpre)⟩
  · have hfind2 : ({ nodes := doc.nodes ++
        [newEntryFor env name (joinUnder env.cwd name)] } : RegistryDoc).nodes.find?
          (fun n => n.name == name) =
        some (newEntryFor env name (joinUnder env.cwd name)) := by
      show (doc.nodes ++ [newEntryFor env name (joinUnder env.cwd name)]).find?
          (fun n => n.name == name) = _
      rw [find?_append_of_none hfind]
      simp [newEntryFor]
    exact ⟨_, pkg_create_of_exist (pkg_exist_reg hdir hreg' hfind2)⟩

/-- Witness for C1: a fresh create then an immediate identical create. -/
theorem create_alreadyExists_no_mutation_witness :
    pkg_create ⟨["repo", "src"], ["repo"]⟩
        ⟨[["repo", "src"], ["repo"]], [], .stored (saveText ⟨[]⟩) ⟨[]⟩⟩ "pkg" =
      (.ok (), (pkg_create ⟨["repo", "src"], ["repo"]⟩
        ⟨[["repo", "src"], ["repo"]], [], .stored (saveText ⟨[]⟩) ⟨[]⟩⟩ "pkg").2) ∧
      ∃ loc, pkg_create ⟨["repo", "src"], ["repo"]⟩
          (pkg_create ⟨["repo", "src"], ["repo"]⟩
            ⟨[["repo", "src"], ["repo"]], [], .stored (saveText ⟨[]⟩) ⟨[]⟩⟩ "pkg").2 "pkg" =
        (.error (.alreadyExists "pkg" loc),
          (pkg_create ⟨["repo", "src"], ["repo"]⟩
            ⟨[["repo", "src"], ["repo"]], [], .stored (saveText ⟨[]⟩) ⟨[]⟩⟩ "pkg").2) := by
  have hcreate : pkg_create ⟨["repo", "src"], ["repo"]⟩
      ⟨[["repo", "src"], ["repo"]], [], .stored (saveText ⟨[]⟩) ⟨[]⟩⟩ "pkg" =
      (.ok (), (pkg_create ⟨["repo", "src"], ["repo"]⟩
        ⟨[["repo", "src"], ["repo"]], [], .stored (saveText ⟨[]⟩) ⟨[]⟩⟩ "pkg").2) := by
    decide
  exact ⟨hcreate,
    (create_alreadyExists_no_mutation ⟨["repo", "src"], ["repo"]⟩
      ⟨[["repo", "src"], ["repo"]], [], .stored (saveText ⟨[]⟩) ⟨[]⟩⟩ "pkg").2.2 _ hcreate⟩

/-! ### C2 -/

/-- The invariant: names are pairwise distinct in the stored registry. -/
def regNamesNodup (st : SysState) : Prop :=
  ∀ t doc, st.reg = RegFile.stored t doc → (doc.nodes.map Entry.name).Nodup

/-- C2: starting from a registry whose entry names are pairwise distinct,
every successful `Create` and every successful (confirmed or declined)
`Delete` leaves a registry whose entry names are still pairwise distinct. -/
theorem registry_name_uniqueness (env : Env) (st : SysState) (name ans : String)
    (hinv : regNamesNodup st) :
    (∀ (u : Unit) st', pkg_create env st name = (.ok u, st') → regNamesNodup st') ∧
      (∀ (r : DeleteOutcome) st', pkg_delete env st name ans = (.ok r, st') →
        regNamesNodup st') := by
  constructor
  · intro u st' h
    obtain ⟨hpre, t, doc, hreg, hfind, hreg'⟩ := pkg_create_ok_inv h
    intro t2 d2 h2
    rw [hreg'] at h2
    injection h2 with ht hd
    subst hd
    have hn : (doc.nodes.map Entry.name).Nodup := hinv t doc hreg
    have hnotmem : name ∉ doc.nodes.map Entry.name := by
      intro hmem
      obtain ⟨e, he, hne⟩ := List.mem_map.mp hmem
      have hpe := List.find?_eq_none.mp hfind e he
      simp [hne] at hpe
    show ((doc.nodes ++ [newEntryFor env name (joinUnder env.cwd name)]).map
      Entry.name).Nodup
    rw [List.map_append]
    refine hn.append (List.nodup_singleton _) ?_
    intro a ha hb
    rw [List.map_singleton, List.mem_singleton] at hb
    subst hb
    exact hnotmem ha
  · intro r st' h
    rcases pkg_delete_ok_inv h with ⟨_, rfl⟩ | ⟨_, t, doc, i, hreg, hidx, hreg'⟩
    · exact hinv
    · intro t2 d2 h2
      rw [hreg'] at h2
      injection h2 with ht hd
      subst hd
      have hn : (doc.nodes.map Entry.name).Nodup := hinv t doc hreg
      exact hn.sublist ((List.eraseIdx_sublist doc.nodes i).map Entry.name)

/-- Witness for C2. -/
theorem registry_name_uniqueness_witness :
    regNamesNodup ⟨[["repo", "src"], ["repo"]], [], .stored (saveText ⟨[]⟩) ⟨[]⟩⟩ ∧
      regNamesNodup (pkg_create ⟨["repo", "src"], ["repo"]⟩
        ⟨[["repo", "src"], ["repo"]], [], .stored (saveText ⟨[]⟩) ⟨[]⟩⟩ "pkg").2 := by
  have hinv : regNamesNodup ⟨[["repo", "src"], ["repo"]], [], .stored (saveText ⟨[]⟩) ⟨[]⟩⟩ := by
    intro t doc h
    injection h with ht hd
    subst hd
    decide
  exact ⟨hinv,
    (registry_name_uniqueness ⟨["repo", "src"], ["repo"]⟩
        ⟨[["repo", "src"], ["repo"]], [], .stored (saveText ⟨[]⟩) ⟨[]⟩⟩ "pkg" "y" hinv).1
      () _ (by decide)⟩

/-! ### C4 -/

/-- C4: after a successful `Create("robot_arm")` the registry holds exactly
one entry named "robot_arm", with type "rti_dds", target "qnx", and path
equal to the created directory's path relative to the repository root (which
is the bare name when the tool is run from the repository root). -/
theorem create_robot_arm_registry (env : Env) (st st' : SysState)
    (h : pkg_create env st "robot_arm" = (.ok (), st')) :
    ∃ t doc, st'.reg = .stored t doc ∧
      doc.nodes.filter (fun n => n.name == "robot_arm") =
        [{ name := "robot_arm", type := "rti_dds",
           path := joinPath ((joinUnder env.cwd "robot_arm").drop env.repoRoot.length),
           target := "qnx" }] ∧
      (env.cwd = env.repoRoot →
        doc.nodes.filter (fun n => n.name == "robot_arm") =
          [{ name := "robot_arm", type := "rti_dds", path := "robot_arm",
             target := "qnx" }]) := by
  obtain ⟨hpre, t, doc, hreg, hfind, hreg'⟩ := pkg_create_ok_inv h
  refine ⟨_, _, hreg', ?_⟩
  have hfilter : doc.nodes.filter (fun n => n.name == "robot_arm") = [] := by
    rw [List.filter_eq_nil_iff]
    exact List.find?_eq_none.mp hfind
  have hmain : (doc.nodes ++ [newEntryFor env "robot_arm" (joinUnder env.cwd "robot_arm")]).filter
      (fun n => n.name == "robot_arm") =
      [newEntryFor env "robot_arm" (joinUnder env.cwd "robot_arm")] := by
    rw [List.filter_append, hfilter]
    simp [newEntryFor]
  refine ⟨hmain, ?_⟩
  intro hcwd
  rw [hmain]
  unfold newEntryFor joinUnder
  rw [hcwd, if_neg (by decide)]
  rw [List.drop_left, show joinPath ["robot_arm"] = "robot_arm" from by decide]

/-- Witness for C4: run from the repository root itself. -/
theorem create_robot_arm_registry_witness :
    pkg_create ⟨["repo"], ["repo"]⟩ ⟨[["repo"]], [], .stored (saveText ⟨[]⟩) ⟨[]⟩⟩
        "robot_arm" =
      (.ok (), (pkg_create ⟨["repo"], ["repo"]⟩
        ⟨[["repo"]], [], .stored (saveText ⟨[]⟩) ⟨[]⟩⟩ "robot_arm").2) ∧
      ∃ t doc, (pkg_create ⟨["repo"], ["repo"]⟩
          ⟨[["repo"]], [], .stored (saveText ⟨[]⟩) ⟨[]⟩⟩ "robot_arm").2.reg =
            .stored t doc ∧
        doc.nodes.filter (fun n => n.name == "robot_arm") =
          [{ name := "robot_arm", type := "rti_dds",
             path := joinPath ((joinUnder ["repo"] "robot_arm").drop
               (List.length ["repo"])), target := "qnx" }] ∧
        (["repo"] = ["repo"] →
          doc.nodes.filter (fun n => n.name == "robot_arm") =
            [{ name := "robot_arm", type := "rti_dds", path := "robot_arm",
               target := "qnx" }]) := by
  have hcreate : pkg_create ⟨["repo"], ["repo"]⟩
      ⟨[["repo"]], [], .stored (saveText ⟨[]⟩) ⟨[]⟩⟩ "robot_arm" =
      (.ok (), (pkg_create ⟨["repo"], ["repo"]⟩
        ⟨[["repo"]], [], .stored (saveText ⟨[]⟩) ⟨[]⟩⟩ "robot_arm").2) := by
    decide
  exact ⟨hcreate, create_robot_arm_registry ⟨["repo"], ["repo"]⟩
    ⟨[["repo"]], [], .stored (saveText ⟨[]⟩) ⟨[]⟩⟩ _ hcreate⟩

/-! ### Constructive runs of the scaffolding loops on a fresh target -/

theorem isPrefixOf_false_iff {l₁ l₂ : AbsPath} :
    l₁.isPrefixOf l₂ = false ↔ ¬ l₁ <+: l₂ := by
  rw [← List.isPrefixOf_iff_prefix]
  cases l₁.isPrefixOf l₂ <;> simp

theorem mkdirParents_run {st : SysState} {p : AbsPath}
    (h1 : p ∉ st.dirs) (h2 : p ∉ st.files)
    (h3 : ∀ q ∈ pathPrefixes p, q ∉ st.files) :
    mkdirParents st p =
      (.ok (), { st with
        dirs := (pathPrefixes p).filter (fun q => decide (q ∉ st.dirs)) ++ st.dirs }) := by
  have hany : (pathPrefixes p).any (fun q => decide (q ∈ st.files)) = false :=
    List.any_eq_false.mpr (fun q hq => by simpa using h3 q hq)
  unfold mkdirParents
  rw [if_neg (fun h => h.elim h1 h2), if_neg (by simp [hany])]

theorem mkdirAll_fresh (absP : AbsPath) (D0 F0 : List AbsPath) (R0 : RegFile)
    (allDs : List String)
    (habs : absP ≠ [])
    (hfree : ∀ q ∈ D0, ¬ absP <+: q)
    (hfreef : ∀ q ∈ F0, ¬ absP <+: q)
    (hancd : ∀ q ∈ pathPrefixes absP, q ≠ absP → q ∈ D0)
    (hancf : ∀ q ∈ pathPrefixes absP, q ∉ F0) :
    ∀ (ds : List String) (L : List AbsPath),
      (∀ d ∈ ds, d ∈ allDs) →
      (∀ d ∈ ds, absP ++ [d] ∉ L) →
      ds.Nodup →
      (∀ q ∈ L, q = absP ∨ ∃ d ∈ allDs, q = absP ++ [d]) →
      ∃ L2,
        mkdirAll ⟨L ++ D0, F0, R0⟩ (ds.map (fun d => absP ++ [d])) =
          (.ok (), ⟨L2 ++ D0, F0, R0⟩) ∧
        (∀ q ∈ L, q ∈ L2) ∧
        (∀ d ∈ ds, absP ++ [d] ∈ L2) ∧
        (ds = [] ∨ absP ∈ L2) ∧
        (∀ q ∈ L2, q = absP ∨ ∃ d ∈ allDs, q = absP ++ [d]) := by
  intro ds
  induction ds with
  | nil =>
    intro L _ _ _ hchar
    exact ⟨L, rfl, fun q h => h, by simp, Or.inl rfl, hchar⟩
  | cons d ds ih =>
    intro L hsub hnew hnodup hchar
    have hd_all : d ∈ allDs := hsub d (List.mem_cons_self _ _)
    have hpfx_p : absP <+: absP ++ [d] := List.prefix_append _ _
    have hp_not_dirs : absP ++ [d] ∉ L ++ D0 := by
      intro hmem
      rcases List.mem_append.mp hmem with hL | h0
      · exact hnew d (List.mem_cons_self _ _) hL
      · exact hfree _ h0 hpfx_p
    have hp_not_files : absP ++ [d] ∉ F0 := fun hmem => hfreef _ hmem hpfx_p
    have hpp : pathPrefixes (absP ++ [d]) = pathPrefixes absP ++ [absP ++ [d]] :=
      pathPrefixes_concat absP d
    have h3 : ∀ q ∈ pathPrefixes (absP ++ [d]), q ∉ F0 := by
      intro q hq
      rw [hpp] at hq
      rcases List.mem_append.mp hq with h1 | h1
      · exact hancf q h1
      · rw [List.mem_singleton] at h1
        subst h1
        exact hp_not_files
    have hstep1 : mkdirParents ⟨L ++ D0, F0, R0⟩ (absP ++ [d]) =
        (.ok (), ⟨((pathPrefixes (absP ++ [d])).filter
          (fun q => decide (q ∉ L ++ D0))) ++ (L ++ D0), F0, R0⟩) :=
      mkdirParents_run hp_not_dirs hp_not_files h3
    have hstep2 : mkdirParents ⟨L ++ D0, F0, R0⟩ (absP ++ [d]) =
        (.ok (), ⟨(((pathPrefixes (absP ++ [d])).filter
          (fun q => decide (q ∉ L ++ D0))) ++ L) ++ D0, F0, R0⟩) := by
      rw [hstep1, List.append_assoc]
    have hLnew_char : ∀ q ∈ (pathPrefixes (absP ++ [d])).filter
        (fun q => decide (q ∉ L ++ D0)),
        q = absP ∨ ∃ d2 ∈ allDs, q = absP ++ [d2] := by
      intro q hq
      obtain ⟨hq1, hq2⟩ := List.mem_filter.mp hq
      rw [hpp] at hq1
      rcases List.mem_append.mp hq1 with h1 | h1
      · by_cases hqabs : q = absP
        · exact Or.inl hqabs
        · exfalso
          have hqd : q ∈ D0 := hancd q h1 hqabs
          have : q ∈ L ++ D0 := List.mem_append.mpr (Or.inr hqd)
          simp only [decide_eq_true_eq] at hq2
          exact hq2 this
      · rw [List.mem_singleton] at h1
        subst h1
        exact Or.inr ⟨d, hd_all, rfl⟩
    have hnew2 : ∀ d2 ∈ ds, absP ++ [d2] ∉
        ((pathPrefixes (absP ++ [d])).filter (fun q => decide (q ∉ L ++ D0))) ++ L := by
      intro d2 hd2 hmem
      rcases List.mem_append.mp hmem with hin | hin
      · have hq1 := (List.mem_filter.mp hin).1
        have hpfx := prefix_of_mem_pathPrefixes hq1
        have heq := hpfx.eq_of_length (by simp)
        have hdd : d2 = d := by
          have h2 := List.append_cancel_left heq
          simpa using h2
        subst hdd
        exact (List.nodup_cons.mp hnodup).1 hd2
      · exact hnew d2 (List.mem_cons_of_mem _ hd2) hin
    obtain ⟨L2, hrun2, hsup2, hmem2, _, hL2char⟩ :=
      ih (((pathPrefixes (absP ++ [d])).filter (fun q => decide (q ∉ L ++ D0))) ++ L)
        (fun d2 hd2 => hsub d2 (List.mem_cons_of_mem _ hd2))
        hnew2
        (List.nodup_cons.mp hnodup).2
        (by
          intro q hq
          rcases List.mem_append.mp hq with hin | hin
          · exact hLnew_char q hin
          · exact hchar q hin)
    have habs_self : absP ∈ pathPrefixes (absP ++ [d]) := by
      rw [hpp]
      exact List.mem_append.mpr (Or.inl (self_mem_pathPrefixes habs))
    have habs_in : absP ∈ L2 := by
      by_cases habsL : absP ∈ L
      · exact hsup2 _ (List.mem_append.mpr (Or.inr habsL))
      · have habs_not : absP ∉ L ++ D0 := by
          intro hmem
          rcases List.mem_append.mp hmem with h1 | h1
          · exact habsL h1
          · exact hfree _ h1 (List.prefix_refl _)
        exact hsup2 _ (List.mem_append.mpr
          (Or.inl (List.mem_filter.mpr ⟨habs_self, decide_eq_true habs_not⟩)))
    refine ⟨L2, ?_, ?_, ?_, Or.inr habs_in, hL2char⟩
    · rw [List.map_cons]
      unfold mkdirAll
      rw [hstep2]
      simp only []
      exact hrun2
    · intro q hq
      exact hsup2 q (List.mem_append.mpr (Or.inr hq))
    · intro d2 hd2
      rcases List.mem_cons.mp hd2 with rfl | hd2
      · have hself : absP ++ [d2] ∈ pathPrefixes (absP ++ [d2]) :=
          self_mem_pathPrefixes (by simp)
        exact hsup2 _ (List.mem_append.mpr
          (Or.inl (List.mem_filter.mpr ⟨hself, decide_eq_true hp_not_dirs⟩)))
      · exact hmem2 d2 hd2

theorem touchAll_fresh (absP : AbsPath) (D1 F0 : List AbsPath) (R0 : RegFile)
    (hparent : absP ∈ D1) :
    ∀ (fs : List String) (F : List AbsPath),
      fs.Nodup →
      (∀ f ∈ fs, absP ++ [f] ∉ D1) →
      (∀ f ∈ fs, absP ++ [f] ∉ F ++ F0) →
      (∀ q ∈ F, ∃ f, q = absP ++ [f]) →
      ∃ F2,
        touchAll ⟨D1, F ++ F0, R0⟩ (fs.map (fun f => absP ++ [f])) =
          (.ok (), ⟨D1, F2 ++ F0, R0⟩) ∧
        (∀ q ∈ F, q ∈ F2) ∧
        (∀ f ∈ fs, absP ++ [f] ∈ F2) ∧
        (∀ q ∈ F2, ∃ f, q = absP ++ [f]) := by
  intro fs
  induction fs with
  | nil =>
    intro F _ _ _ hchar
    exact ⟨F, rfl, fun q h => h, by simp, hchar⟩
  | cons f fs ih =>
    intro F hnodup hnd hnf hchar
    have hp_not : absP ++ [f] ∉ F ++ F0 := hnf f (List.mem_cons_self _ _)
    have hstep : touchFile ⟨D1, F ++ F0, R0⟩ (absP ++ [f]) =
        (.ok (), ⟨D1, (absP ++ [f]) :: (F ++ F0), R0⟩) := by
      unfold touchFile
      rw [if_neg (fun h => h.elim (hnd f (List.mem_cons_self _ _)) (fun h2 => hp_not h2))]
      rw [if_pos (show (absP ++ [f]).dropLast ∈ D1 from by
        rw [List.dropLast_concat]; exact hparent)]
    obtain ⟨F2, hrun2, hsup2, hmem2, hchar2⟩ :=
      ih ((absP ++ [f]) :: F)
        (List.nodup_cons.mp hnodup).2
        (fun f2 hf2 => hnd f2 (List.mem_cons_of_mem _ hf2))
        (by
          intro f2 hf2 hmem
          rcases List.mem_cons.mp hmem with he | hin
          · have : f2 = f := by
              have h2 := List.append_cancel_left he
              simpa using h2
            subst this
            exact (List.nodup_cons.mp hnodup).1 hf2
          · exact hnf f2 (List.mem_cons_of_mem _ hf2) hin)
        (by
          intro q hq
          rcases List.mem_cons.mp hq with rfl | hin
          · exact ⟨f, rfl⟩
          · exact hchar q hin)
    refine ⟨F2, ?_, ?_, ?_, hchar2⟩
    · rw [List.map_cons]
      unfold touchAll
      rw [hstep]
      simp only []
      exact hrun2
    · intro q hq
      exact hsup2 q (List.mem_cons_of_mem _ hq)
    · intro f2 hf2
      rcases List.mem_cons.mp hf2 with rfl | hf2
      · exact hsup2 _ (List.mem_cons_self _ _)
      · exact hmem2 f2 hf2

theorem filter_not_pfx {absP : AbsPath} {L D : List AbsPath}
    (hL : ∀ q ∈ L, absP <+: q) (hD : ∀ q ∈ D, ¬ absP <+: q) :
    (L ++ D).filter (fun q => !(absP.isPrefixOf q)) = D := by
  rw [List.filter_append]
  have h1 : L.filter (fun q => !(absP.isPrefixOf q)) = [] := by
    rw [List.filter_eq_nil_iff]
    intro q hq
    simp [List.isPrefixOf_iff_prefix, hL q hq]
  have h2 : D.filter (fun q => !(absP.isPrefixOf q)) = D := by
    rw [List.filter_eq_self]
    intro q hq
    simp only [Bool.not_eq_true']
    exact isPrefixOf_false_iff.mpr (hD q hq)
  rw [h1, h2, List.nil_append]

theorem findIdx_eraseIdx_concat {α : Type} {p : α → Bool} {l : List α} {e : α}
    (hl : l.find? p = none) (he : p e = true) :
    (l ++ [e]).findIdx? p = some l.length ∧ (l ++ [e]).eraseIdx l.length = l := by
  constructor
  · rw [List.findIdx?_append]
    have h1 : l.findIdx? p = none := by
      rw [List.findIdx?_eq_none_iff]
      intro x hx
      have hx2 := List.find?_eq_none.mp hl x hx
      simpa using hx2
    rw [h1, Option.none_or]
    simp [he]
  · rw [List.eraseIdx_append_of_length_le (Nat.le_refl _)]
    simp

/-! ### C3 -/

/-- C3: for a valid fresh name (no directory or file at or under the target,
ancestors of the target present as directories, name absent from the stored
registry), `Create` followed immediately by a confirmed `Delete` of the same
name restores the directory listing, the file listing, and the parsed
registry document exactly; the registry file's bytes end up in the tool's
canonical serialization of that document, so the whole state is restored
verbatim whenever the pre-Create registry file was already in canonical
form. -/
theorem create_delete_roundtrip (env : Env) (st : SysState) (name text : String)
    (doc : RegistryDoc)
    (hvalid : reMatchSnake name = true)
    (habs : joinUnder env.cwd name ≠ [])
    (hroot : env.repoRoot.isPrefixOf env.cwd = true)
    (hfreeB : ∀ q ∈ st.dirs, (joinUnder env.cwd name).isPrefixOf q = false)
    (hfreefB : ∀ q ∈ st.files, (joinUnder env.cwd name).isPrefixOf q = false)
    (hancd : ∀ q ∈ pathPrefixes (joinUnder env.cwd name),
      q ≠ joinUnder env.cwd name → q ∈ st.dirs)
    (hancf : ∀ q ∈ pathPrefixes (joinUnder env.cwd name), q ∉ st.files)
    (hreg : st.reg = .stored text doc)
    (hfresh : doc.nodes.find? (fun n => n.name == name) = none) :
    ∃ st1 st2, pkg_create env st name = (.ok (), st1) ∧
      pkg_delete env st1 name "y" = (.ok .deleted, st2) ∧
      st2.dirs = st.dirs ∧ st2.files = st.files ∧
      st2.reg = .stored (saveText doc) doc ∧
      (text = saveText doc → st2 = st) := by
  have hfree : ∀ q ∈ st.dirs, ¬ joinUnder env.cwd name <+: q :=
    fun q hq => isPrefixOf_false_iff.mp (hfreeB q hq)
  have hfreef : ∀ q ∈ st.files, ¬ joinUnder env.cwd name <+: q :=
    fun q hq => isPrefixOf_false_iff.mp (hfreefB q hq)
  have hpre : env.repoRoot.isPrefixOf (joinUnder env.cwd name) = true := by
    rw [List.isPrefixOf_iff_prefix] at hroot ⊢
    exact hroot.trans (cwd_prefix_joinUnder _ _)
  have habsdir : joinUnder env.cwd name ∉ st.dirs :=
    fun h => hfree _ h (List.prefix_refl _)
  have hex := pkg_exist_none habsdir hreg hfresh
  obtain ⟨L2, hrun, _, hL2mem, hLabs, hL2char⟩ :=
    mkdirAll_fresh (joinUnder env.cwd name) st.dirs st.files st.reg nested_dirs
      habs hfree hfreef hancd hancf nested_dirs []
      (fun d hd => hd) (by simp) (by decide) (by simp)
  have habsin : joinUnder env.cwd name ∈ L2 := by
    rcases hLabs with h | h
    · exact absurd h (by decide)
    · exact h
  have hrun' : mkdirAll st (nested_dirs.map (fun d => joinUnder env.cwd name ++ [d])) =
      (.ok (), ⟨L2 ++ st.dirs, st.files, st.reg⟩) := hrun
  have hndT : ∀ f ∈ pkgTemplateFiles, joinUnder env.cwd name ++ [f] ∉ L2 ++ st.dirs := by
    intro f hf hmem
    rcases List.mem_append.mp hmem with hin | hin
    · rcases hL2char _ hin with h | ⟨d, hd, h⟩
      · have := congrArg List.length h
        simp at this
      · have hfd : f = d := by
          have h2 := List.append_cancel_left h
          simpa using h2
        subst hfd
        simp only [pkgTemplateFiles, List.mem_cons, List.not_mem_nil, or_false] at hf
        rcases hf with rfl | rfl <;> simp [nested_dirs] at hd
    · exact hfree _ hin (List.prefix_append _ _)
  have hnfT : ∀ f ∈ pkgTemplateFiles,
      joinUnder env.cwd name ++ [f] ∉ ([] : List AbsPath) ++ st.files :=
    fun f hf hmem => hfreef _ hmem (List.prefix_append _ _)
  obtain ⟨F2, htrun, _, hF2mem, hF2char⟩ :=
    touchAll_fresh (joinUnder env.cwd name) (L2 ++ st.dirs) st.files st.reg
      (List.mem_append.mpr (Or.inl habsin)) pkgTemplateFiles []
      (by decide) hndT hnfT (by simp)
  have htrun' : touchAll ⟨L2 ++ st.dirs, st.files, st.reg⟩
      (pkgTemplateFiles.map (fun f => joinUnder env.cwd name ++ [f])) =
      (.ok (), ⟨L2 ++ st.dirs, F2 ++ st.files, st.reg⟩) := htrun
  have hcde : create_or_delete_entry env ⟨L2 ++ st.dirs, F2 ++ st.files, st.reg⟩
      true name (joinUnder env.cwd name) =
      (.ok true, saveReg ⟨L2 ++ st.dirs, F2 ++ st.files, st.reg⟩
        ⟨doc.nodes ++ [newEntryFor env name (joinUnder env.cwd name)]⟩) :=
    cde_create_run hreg hpre
  have hcreate : pkg_create env st name =
      (.ok (), ⟨L2 ++ st.dirs, F2 ++ st.files,
        RegFile.stored
          (saveText ⟨doc.nodes ++ [newEntryFor env name (joinUnder env.cwd name)]⟩)
          ⟨doc.nodes ++ [newEntryFor env name (joinUnder env.cwd name)]⟩⟩) := by
    unfold pkg_create
    simp only []
    rw [hex]
    simp only []
    rw [hrun']
    simp only []
    rw [htrun']
    simp only []
    rw [hcde]
    rfl
  have habsin3 : joinUnder env.cwd name ∈ L2 ++ st.dirs :=
    List.mem_append.mpr (Or.inl habsin)
  have hexD : pkg_exist env ⟨L2 ++ st.dirs, F2 ++ st.files,
      RegFile.stored
        (saveText ⟨doc.nodes ++ [newEntryFor env name (joinUnder env.cwd name)]⟩)
        ⟨doc.nodes ++ [newEntryFor env name (joinUnder env.cwd name)]⟩⟩ name =
      .ok (true, some (joinPath ((joinUnder env.cwd name).drop env.repoRoot.length))) :=
    pkg_exist_disk habsin3 hpre
  have hL2pfx : ∀ q ∈ L2, joinUnder env.cwd name <+: q := by
    intro q hq
    rcases hL2char q hq with rfl | ⟨d, _, rfl⟩
    · exact List.prefix_refl _
    · exact List.prefix_append _ _
  have hF2pfx : ∀ q ∈ F2, joinUnder env.cwd name <+: q := by
    intro q hq
    obtain ⟨f, rfl⟩ := hF2char q hq
    exact List.prefix_append _ _
  have hrm : rmtree ⟨L2 ++ st.dirs, F2 ++ st.files,
      RegFile.stored
        (saveText ⟨doc.nodes ++ [newEntryFor env name (joinUnder env.cwd name)]⟩)
        ⟨doc.nodes ++ [newEntryFor env name (joinUnder env.cwd name)]⟩⟩
      (joinUnder env.cwd name) =
      (.ok (), ⟨st.dirs, st.files,
        RegFile.stored
          (saveText ⟨doc.nodes ++ [newEntryFor env name (joinUnder env.cwd name)]⟩)
          ⟨doc.nodes ++ [newEntryFor env name (joinUnder env.cwd name)]⟩⟩) := by
    unfold rmtree
    rw [if_pos habsin3]
    simp only []
    rw [filter_not_pfx hL2pfx hfree, filter_not_pfx hF2pfx hfreef]
  have hfidx := @findIdx_eraseIdx_concat Entry (fun n => n.name == name) doc.nodes
    (newEntryFor env name (joinUnder env.cwd name)) hfresh (by simp [newEntryFor])
  have hcdeD : create_or_delete_entry env ⟨st.dirs, st.files,
      RegFile.stored
        (saveText ⟨doc.nodes ++ [newEntryFor env name (joinUnder env.cwd name)]⟩)
        ⟨doc.nodes ++ [newEntryFor env name (joinUnder env.cwd name)]⟩⟩
      false name (joinUnder env.cwd name) =
      (.ok true, ⟨st.dirs, st.files, RegFile.stored (saveText doc) doc⟩) := by
    have h1 := @cde_delete_run env
      ⟨st.dirs, st.files,
        RegFile.stored
          (saveText ⟨doc.nodes ++ [newEntryFor env name (joinUnder env.cwd name)]⟩)
          ⟨doc.nodes ++ [newEntryFor env name (joinUnder env.cwd name)]⟩⟩
      name
      (saveText ⟨doc.nodes ++ [newEntryFor env name (joinUnder env.cwd name)]⟩)
      (joinUnder env.cwd name)
      ⟨doc.nodes ++ [newEntryFor env name (joinUnder env.cwd name)]⟩
      doc.nodes.length rfl hfidx.1
    rw [h1]
    have h2 : (doc.nodes ++ [newEntryFor env name (joinUnder env.cwd name)]).eraseIdx
        doc.nodes.length = doc.nodes := hfidx.2
    show _ = (Except.ok true, (⟨st.dirs, st.files,
      RegFile.stored (saveText doc) doc⟩ : SysState))
    rw [show (⟨(doc.nodes ++ [newEntryFor env name (joinUnder env.cwd name)]).eraseIdx
      doc.nodes.length⟩ : RegistryDoc) = doc from by rw [h2]]
    rfl
  have hdelete : pkg_delete env ⟨L2 ++ st.dirs, F2 ++ st.files,
      RegFile.stored
        (saveText ⟨doc.nodes ++ [newEntryFor env name (joinUnder env.cwd name)]⟩)
        ⟨doc.nodes ++ [newEntryFor env name (joinUnder env.cwd name)]⟩⟩ name "y" =
      (.ok .deleted, ⟨st.dirs, st.files, RegFile.stored (saveText doc) doc⟩) := by
    unfold pkg_delete
    simp only []
    rw [hexD]
    simp only []
    rw [if_pos (show statOk _ (joinUnder env.cwd name) from Or.inl habsin3)]
    rw [if_pos (show pyLower "y" = "y" from by decide)]
    rw [hrm]
    simp only []
    rw [hcdeD]
  refine ⟨_, _, hcreate, hdelete, rfl, rfl, rfl, ?_⟩
  intro htext
  have hback : RegFile.stored (saveText doc) doc = st.reg := by rw [hreg, htext]
  calc (⟨st.dirs, st.files, RegFile.stored (saveText doc) doc⟩ : SysState)
      = ⟨st.dirs, st.files, st.reg⟩ := by rw [hback]
    _ = st := rfl

/-- Witness for C3. -/
theorem create_delete_roundtrip_witness :
    reMatchSnake "pkg" = true ∧
      (∃ st1 st2,
        pkg_create ⟨["repo", "src"], ["repo"]⟩
            ⟨[["repo", "src"], ["repo"]], [], .stored (saveText ⟨[]⟩) ⟨[]⟩⟩ "pkg" =
          (.ok (), st1) ∧
        pkg_delete ⟨["repo", "src"], ["repo"]⟩ st1 "pkg" "y" = (.ok .deleted, st2) ∧
        st2.dirs = (SysState.mk [["repo", "src"], ["repo"]] []
          (.stored (saveText ⟨[]⟩) ⟨[]⟩)).dirs ∧
        st2.files = (SysState.mk [["repo", "src"], ["repo"]] []
          (.stored (saveText ⟨[]⟩) ⟨[]⟩)).files ∧
        st2.reg = .stored (saveText (⟨[]⟩ : RegistryDoc)) ⟨[]⟩ ∧
        (saveText (⟨[]⟩ : RegistryDoc) = saveText (⟨[]⟩ : RegistryDoc) →
          st2 = ⟨[["repo", "src"], ["repo"]], [], .stored (saveText ⟨[]⟩) ⟨[]⟩⟩)) :=
  ⟨by decide,
    create_delete_roundtrip ⟨["repo", "src"], ["repo"]⟩
      ⟨[["repo", "src"], ["repo"]], [], .stored (saveText ⟨[]⟩) ⟨[]⟩⟩ "pkg"
      (saveText ⟨[]⟩) ⟨[]⟩
      (by decide) (by decide) (by decide) (by decide) (by decide) (by decide)
      (by decide) rfl rfl⟩

/-! ### C9 -/

/-- C9: run with the current directory outside the repository root, `Create`
of a fresh valid name first materializes the whole package tree on disk and
only then crashes with an uncaught `ValueError` from
`Path.relative_to(REPO_ROOT)` while building the registry entry: the
registry file is left untouched (an untracked directory), with no structured
`RegistrySyncFailed`-style report. -/
theorem create_outside_repo_untracked (env : Env) (st : SysState)
    (name text ans : String) (doc : RegistryDoc)
    (hvalid : reMatchSnake name = true)
    (habs : joinUnder env.cwd name ≠ [])
    (hroot : env.repoRoot.isPrefixOf env.cwd = false)
    (hne : joinUnder env.cwd name ≠ env.repoRoot)
    (hfreeB : ∀ q ∈ st.dirs, (joinUnder env.cwd name).isPrefixOf q = false)
    (hfreefB : ∀ q ∈ st.files, (joinUnder env.cwd name).isPrefixOf q = false)
    (hancd : ∀ q ∈ pathPrefixes (joinUnder env.cwd name),
      q ≠ joinUnder env.cwd name → q ∈ st.dirs)
    (hancf : ∀ q ∈ pathPrefixes (joinUnder env.cwd name), q ∉ st.files)
    (hreg : st.reg = .stored text doc)
    (hfresh : doc.nodes.find? (fun n => n.name == name) = none) :
    ∃ st', main_run env st .create name ans = (.error (.uncaught .valueError), st') ∧
      st'.reg = st.reg ∧
      joinUnder env.cwd name ∈ st'.dirs ∧
      (∀ d ∈ nested_dirs, joinUnder env.cwd name ++ [d] ∈ st'.dirs) ∧
      (∀ f ∈ pkgTemplateFiles, joinUnder env.cwd name ++ [f] ∈ st'.files) := by
  have hfree : ∀ q ∈ st.dirs, ¬ joinUnder env.cwd name <+: q :=
    fun q hq => isPrefixOf_false_iff.mp (hfreeB q hq)
  have hfreef : ∀ q ∈ st.files, ¬ joinUnder env.cwd name <+: q :=
    fun q hq => isPrefixOf_false_iff.mp (hfreefB q hq)
  have hpreF : env.repoRoot.isPrefixOf (joinUnder env.cwd name) = false := by
    rw [isPrefixOf_false_iff]
    intro hp
    unfold joinUnder at hp hne
    by_cases hn : name = ""
    · rw [if_pos hn] at hp
      rw [← List.isPrefixOf_iff_prefix] at hp
      rw [hp] at hroot
      exact Bool.noConfusion hroot
    · rw [if_neg hn] at hp hne
      rcases List.prefix_concat_iff.mp hp with h | h
      · exact hne h.symm
      · rw [← List.isPrefixOf_iff_prefix] at h
        rw [h] at hroot
        exact Bool.noConfusion hroot
  have habsdir : joinUnder env.cwd name ∉ st.dirs :=
    fun h => hfree _ h (List.prefix_refl _)
  have hex := pkg_exist_none habsdir hreg hfresh
  obtain ⟨L2, hrun, _, hL2mem, hLabs, hL2char⟩ :=
    mkdirAll_fresh (joinUnder env.cwd name) st.dirs st.files st.reg nested_dirs
      habs hfree hfreef hancd hancf nested_dirs []
      (fun d hd => hd) (by simp) (by decide) (by simp)
  have habsin : joinUnder env.cwd name ∈ L2 := by
    rcases hLabs with h | h
    · exact absurd h (by decide)
    · exact h
  have hrun' : mkdirAll st (nested_dirs.map (fun d => joinUnder env.cwd name ++ [d])) =
      (.ok (), ⟨L2 ++ st.dirs, st.files, st.reg⟩) := hrun
  have hndT : ∀ f ∈ pkgTemplateFiles, joinUnder env.cwd name ++ [f] ∉ L2 ++ st.dirs := by
    intro f hf hmem
    rcases List.mem_append.mp hmem with hin | hin
    · rcases hL2char _ hin with h | ⟨d, hd, h⟩
      · have := congrArg List.length h
        simp at this
      · have hfd : f = d := by
          have h2 := List.append_cancel_left h
          simpa using h2
        subst hfd
        simp only [pkgTemplateFiles, List.mem_cons, List.not_mem_nil, or_false] at hf
        rcases hf with rfl | rfl <;> simp [nested_dirs] at hd
    · exact hfree _ hin (List.prefix_append _ _)
  have hnfT : ∀ f ∈ pkgTemplateFiles,
      joinUnder env.cwd name ++ [f] ∉ ([] : List AbsPath) ++ st.files :=
    fun f hf hmem => hfreef _ hmem (List.prefix_append _ _)
  obtain ⟨F2, htrun, _, hF2mem, hF2char⟩ :=
    touchAll_fresh (joinUnder env.cwd name) (L2 ++ st.dirs) st.files st.reg
      (List.mem_append.mpr (Or.inl habsin)) pkgTemplateFiles []
      (by decide) hndT hnfT (by simp)
  have htrun' : touchAll ⟨L2 ++ st.dirs, st.files, st.reg⟩
      (pkgTemplateFiles.map (fun f => joinUnder env.cwd name ++ [f])) =
      (.ok (), ⟨L2 ++ st.dirs, F2 ++ st.files, st.reg⟩) := htrun
  have hcdeE : create_or_delete_entry env ⟨L2 ++ st.dirs, F2 ++ st.files, st.reg⟩
      true name (joinUnder env.cwd name) =
      (.error (.uncaught .valueError), ⟨L2 ++ st.dirs, F2 ++ st.files, st.reg⟩) :=
    cde_create_valueError hreg hpreF
  have hcreateE : pkg_create env st name =
      (.error (.uncaught .valueError), ⟨L2 ++ st.dirs, F2 ++ st.files, st.reg⟩) := by
    unfold pkg_create
    simp only []
    rw [hex]
    simp only []
    rw [hrun']
    simp only []
    rw [htrun']
    simp only []
    rw [hcdeE]
  have hmain : main_run env st .create name ans =
      (.error (.uncaught .valueError), ⟨L2 ++ st.dirs, F2 ++ st.files, st.reg⟩) := by
    unfold main_run
    rw [if_pos hvalid]
    simp only []
    rw [hcreateE]
  refine ⟨_, hmain, rfl, List.mem_append.mpr (Or.inl habsin), ?_, ?_⟩
  · intro d hd
    exact List.mem_append.mpr (Or.inl (hL2mem d hd))
  · intro f hf
    exact List.mem_append.mpr (Or.inl (hF2mem f hf))

/-- Witness for C9. -/
theorem create_outside_repo_untracked_witness :
    (["repo"] : AbsPath).isPrefixOf ["elsewhere"] = false ∧
      (∃ st', main_run ⟨["elsewhere"], ["repo"]⟩
          ⟨[["elsewhere"]], [], .stored (saveText ⟨[]⟩) ⟨[]⟩⟩ .create "pkg" "" =
          (.error (.uncaught .valueError), st') ∧
        st'.reg = (SysState.mk [["elsewhere"]] []
          (.stored (saveText ⟨[]⟩) ⟨[]⟩)).reg ∧
        joinUnder ["elsewhere"] "pkg" ∈ st'.dirs ∧
        (∀ d ∈ nested_dirs, joinUnder ["elsewhere"] "pkg" ++ [d] ∈ st'.dirs) ∧
        (∀ f ∈ pkgTemplateFiles, joinUnder ["elsewhere"] "pkg" ++ [f] ∈ st'.files)) :=
  ⟨by decide,
    create_outside_repo_untracked ⟨["elsewhere"], ["repo"]⟩
      ⟨[["elsewhere"]], [], .stored (saveText ⟨[]⟩) ⟨[]⟩⟩ "pkg" (saveText ⟨[]⟩) "" ⟨[]⟩
      (by decide) (by decide) (by decide) (by decide) (by decide) (by decide)
      (by decide) (by decide) rfl rfl⟩

end Srpkg
